import Mathlib

/-!
Shallow embedding of `src/game/chat.go` (package `game` of the diplicity
repository): the chat message/channel store.  Go strings are modelled as
`List Char`; `time.Time` as `Nat`; Go `int` counters as `Int`;
`*datastore.Key` game identifiers as `Option Int` (nil pointer = `none`,
otherwise the key's IntID).  Datastore operations are modelled as pure
state passing over an explicit record store; fallible operations return
`Except`.
-/

namespace Diplicity

/-- A Go string, modelled as its list of characters. -/
abbrev Str := List Char

/-- Go `dip.Nation` is a string type. -/
abbrev Nation := Str

/-- Go `type Nations []dip.Nation`. -/
abbrev Nations := List Nation

/-- Model of Go `strings.Split(s, ",")`: splitting the empty string yields
one empty field; every comma starts a new field. -/
def splitComma : Str → List Str
  | [] => [[]]
  | c :: rest =>
    if c = ',' then [] :: splitComma rest
    else
      match splitComma rest with
      | [] => [[c]]
      | x :: xs => (c :: x) :: xs

/-- Model of Go `strings.Join(slice, ",")`. -/
def joinComma : List Str → Str
  | [] => []
  | [x] => x
  | x :: xs => x ++ ',' :: joinComma xs

/-- Go `func (n *Nations) FromString(s string)`: splits on commas and converts
each part to a `Nation`. -/
def Nations.FromString (s : Str) : Nations :=
  splitComma s

/-- Go `func (n Nations) Includes(m dip.Nation) bool`: linear scan for equality. -/
def Nations.Includes (n : Nations) (m : Nation) : Bool :=
  n.contains m

/-- Go `func (n Nations) String() string`: comma-joins the nation names. -/
def Nations.String (n : Nations) : Str :=
  joinComma n

/-- Model of Go `sort.Sort` on `Nations` with `Less i j = n[i] < n[j]`
(lexicographic byte order on strings): the sorted rearrangement of the
sequence.  For a total order the sorted sequence is unique, so any sorting
algorithm gives this result. -/
def sortNations (n : Nations) : Nations :=
  n.insertionSort (· ≤ ·)

/-- Decimal digit character, as `fmt` renders one. -/
def digitChar (n : Nat) : Char :=
  Char.ofNat (48 + n)

/-- Decimal digits of a natural number, fuel-structured so it reduces
definitionally (fuel `n + 1` always suffices). -/
def natDigits : Nat → Nat → Str
  | 0, _ => []
  | fuel + 1, n =>
    if n < 10 then [digitChar n]
    else natDigits fuel (n / 10) ++ [digitChar (n % 10)]

/-- Model of `fmt.Sprintf("%d", i)` for an `int64`. -/
def intToStr (i : Int) : Str :=
  if i < 0 then '-' :: natDigits ((-i).toNat + 1) (-i).toNat
  else natDigits (i.toNat + 1) i.toNat

/-- A datastore key: kind, string ID and int ID (parents other than nil are
not used for channel keys). -/
structure Key where
  kind : Str
  stringID : Str
  intID : Int
deriving DecidableEq, Repr

/-- Go `const channelKind = "Channel"`. -/
def channelKind : Str := "Channel".data

/-- Go `const messageKind = "Message"`. -/
def messageKind : Str := "Message".data

/-- Go `func ChannelID(ctx, gameID, members) (*datastore.Key, error)`:
rejects a nil game key or fewer than 2 members, then a zero IntID, and
otherwise builds the key `"%d:%s"` from the game's IntID and the
comma-joined members.  It does not sort `members` itself. -/
def ChannelID (gameID : Option Int) (members : Nations) : Except Str Key :=
  if gameID = none ∨ members.length < 2 then
    .error "channels must have games and > 1 members".data
  else
    match gameID with
    | none => .error "channels must have games and > 1 members".data
    | some id =>
      if id = 0 then .error "gameIDs must have int IDs".data
      else .ok ⟨channelKind, intToStr id ++ ':' :: Nations.String members, 0⟩

deriving instance DecidableEq for Except

/-- Go `type NMessagesSince struct`: a since-timestamp with a message count. -/
structure NMessagesSince where
  Since : Nat
  NMessages : Int
deriving DecidableEq, Repr

/-- Go `type Channel struct`: game key, member set, persisted counter, and the
transient since-count (zero-valued unless computed). -/
structure Channel where
  GameID : Option Int
  Members : Nations
  NMessages : Int
  NMessagesSince : NMessagesSince
deriving DecidableEq, Repr

/-- Go `type Message struct` (the store-assigned `ID` field is left out: it is
not read by any of the operations modelled here). -/
structure Message where
  GameID : Option Int
  ChannelMembers : Nations
  Sender : Nation
  Body : Str
  CreatedAt : Nat
deriving DecidableEq, Repr

/-- The datastore contents relevant to the chat core: channel entities keyed
by their channel key, and message entities each stored under its ancestor
channel key (`datastore.NewIncompleteKey(ctx, messageKind, channelID)`). -/
structure Datastore where
  channels : List (Key × Channel)
  messages : List (Key × Message)
deriving DecidableEq, Repr

/-- Model of `datastore.Get` on a channel key: first entity stored at that key. -/
def lookupChannel (l : List (Key × Channel)) (k : Key) : Option Channel :=
  (l.find? (fun p => p.1 == k)).map Prod.snd

/-- Model of `datastore.Put` on a channel key: replaces the entity at that key. -/
def putChannel (l : List (Key × Channel)) (k : Key) (c : Channel) :
    List (Key × Channel) :=
  (k, c) :: l.filter (fun p => !(p.1 == k))

/-- The persisted counter of the channel at key `k` (0 when absent). -/
def nMessagesAt (ds : Datastore) (k : Key) : Int :=
  match lookupChannel ds.channels k with
  | some c => c.NMessages
  | none => 0

/-- The number of message records whose ancestor is the channel key `k`. -/
def messagesUnder (ds : Datastore) (k : Key) : Nat :=
  (ds.messages.filter (fun p => p.1 == k)).length

/-- The spec's counter invariant: every channel's persisted `NMessages`
equals the number of message records owned by that channel (a key with no
channel record owns no messages). -/
def CounterInvariant (ds : Datastore) : Prop :=
  ∀ k, nMessagesAt ds k = (messagesUnder ds k : Int)

/-- Error outcomes of `createMessage`: the 403 `"can only send messages to
member channels"`, the 400 `"unknown channel member"`, and a `ChannelID`
derivation failure. -/
inductive CMErr where
  | forbidden
  | unknownMember
  | keyErr (e : Str)
deriving DecidableEq, Repr

/-- Go `func createMessage(w, r) (*Message, error)`, with its collaborator
steps (identity, game and member lookup, body decoding) abstracted into
parameters: `roster` is `variants.Variants[game.Variant].Nations`, `sender`
is `member.Nation`, `postMembers` the POSTed `ChannelMembers`, `now` the
`time.Now()` timestamp.  Returns the datastore after the call together with
the outcome; validation failures leave the store untouched.  (When
`datastore.Get` fails with anything other than `ErrNoSuchEntity` the Go
code proceeds with a zero-valued channel; the model's store lookup has no
such failure mode.) -/
def createMessage (roster : Nations) (gameID : Option Int) (sender : Nation)
    (postMembers : Nations) (body : Str) (now : Nat) (ds : Datastore) :
    Datastore × Except CMErr Message :=
  let members := sortNations postMembers
  if !(Nations.Includes members sender) then
    (ds, .error .forbidden)
  else if members.any (fun m => !(Nations.Includes roster m)) then
    (ds, .error .unknownMember)
  else
    match ChannelID gameID members with
    | .error e => (ds, .error (.keyErr e))
    | .ok channelID =>
      let channel :=
        match lookupChannel ds.channels channelID with
        | some c => c
        | none => { GameID := gameID, Members := members, NMessages := 0,
                    NMessagesSince := ⟨0, 0⟩ }
      let message : Message :=
        { GameID := gameID, ChannelMembers := members, Sender := sender,
          Body := body, CreatedAt := now }
      ({ channels := putChannel ds.channels channelID
           { channel with NMessages := channel.NMessages + 1 },
         messages := ds.messages ++ [(channelID, message)] },
       .ok message)

/-- Go `func publicChannel(variant string) Nations`: the variant's roster,
sorted.  The variant registry is a collaborator, so the roster is passed
directly. -/
def publicChannel (roster : Nations) : Nations :=
  sortNations roster

/-- Go `func isPublic(variant string, members Nations) bool`: sorted `members`
has the same length as the sorted roster and agrees with it elementwise. -/
def isPublic (roster : Nations) (members : Nations) : Bool :=
  let public := publicChannel roster
  let ms := sortNations members
  if ms.length ≠ public.length then false
  else (public.zip ms).all (fun p => p.1 == p.2)

/-- Error outcomes of `listMessages` (the 403 and a `ChannelID` failure). -/
inductive LMErr where
  | forbidden
  | keyErr (e : Str)
deriving DecidableEq, Repr

instance : DecidableRel (fun a b : Message => b.CreatedAt ≤ a.CreatedAt) :=
  fun _ _ => Nat.decLe _ _

/-- The `Order("-CreatedAt")` result order: newest first. -/
def sortMessagesDesc (l : List Message) : List Message :=
  l.insertionSort (fun a b => b.CreatedAt ≤ a.CreatedAt)

/-- The `Filter("CreatedAt>", since)` clause, applied only when a `since`
parameter was supplied. -/
def sinceFilter (since : Option Nat) (m : Message) : Bool :=
  match since with
  | some t => decide (t < m.CreatedAt)
  | none => true

/-- The member set `listMessages` derives its channel key from: Go's
`sort.Sort` inside `isPublic` mutates the slice in place, and with Go's
short-circuit `&&` the `isPublic` call runs only when the membership test
already failed — so the set stays in request order exactly when the
requester is one of its members. -/
def queryMembersOf (nation : Nation) (channelMembers : Nations) : Nations :=
  if Nations.Includes channelMembers nation then channelMembers
  else sortNations channelMembers

/-- Go `func listMessages(w, r) error`, collaborator steps abstracted as in
`createMessage`: `roster` is the variant's nations, `nation` the requester's
role (`""`, i.e. `[]`, for an observer), `membersParam` the raw
`channel_members` URL variable, `since` the parsed `since` parameter. -/
def listMessages (roster : Nations) (nation : Nation) (gameID : Option Int)
    (membersParam : Str) (since : Option Nat) (ds : Datastore) :
    Except LMErr (List Message) :=
  let channelMembers := Nations.FromString membersParam
  if !(Nations.Includes channelMembers nation) && !(isPublic roster channelMembers) then
    .error .forbidden
  else
    match ChannelID gameID (queryMembersOf nation channelMembers) with
    | .error e => .error (.keyErr e)
    | .ok channelID =>
      .ok (sortMessagesDesc
        ((ds.messages.filter
          (fun p => p.1 == channelID && sinceFilter since p.2)).map Prod.snd))

/-- Go `func (c *Channel) CountSince(ctx, since) error`: derives the channel
key, runs the ancestor count query, and stores the result in
`NMessagesSince`.  The datastore count query is abstracted as the oracle
`query`, which may fail (modelling store-level query failure). -/
def CountSince (query : Key → Except Str Int) (since : Nat) (c : Channel) :
    Except Str Channel :=
  match ChannelID c.GameID c.Members with
  | .error e => .error e
  | .ok channelID =>
    match query channelID with
    | .error e => .error e
    | .ok count => .ok { c with NMessagesSince := ⟨since, count⟩ }

/-- Error outcomes of `listChannels`: a `ChannelID` failure on the public
roster, or the `appengine.MultiError` aggregated from the counting
fan-out. -/
inductive LCErr where
  | keyErr (e : Str)
  | multi (errs : List Str)
deriving DecidableEq, Repr

/-- The channel-selection phase of `listChannels`: an observer (`nation ==
""`) gets the public channel if it exists (absence is not an error); a
member gets every channel of the game whose member set includes their
nation, via the `GameID=`/`Members=` query. -/
def selectChannels (roster : Nations) (nation : Nation) (gameID : Option Int)
    (ds : Datastore) : Except LCErr (List Channel) :=
  if nation = [] then
    match ChannelID gameID (publicChannel roster) with
    | .error e => .error (.keyErr e)
    | .ok channelID =>
      match lookupChannel ds.channels channelID with
      | some c => .ok [c]
      | none => .ok []
  else
    .ok ((ds.channels.filter (fun p =>
      (p.2).GameID == gameID && Nations.Includes (p.2).Members nation)).map Prod.snd)

/-- Go `func listChannels(w, r) error`, collaborator steps abstracted as in
`listMessages`.  With a `since` parameter, one `CountSince` task is spawned
per selected channel; the receive loop collects every error into an
`appengine.MultiError`, which is returned whenever it is non-empty (the
model collects the per-task outcomes in selection order; Go's receive order
is a permutation of it).  Without `since`, each channel's
`NMessagesSince.NMessages` is set to its persisted counter. -/
def listChannels (query : Key → Except Str Int) (roster : Nations)
    (nation : Nation) (gameID : Option Int) (since : Option Nat)
    (ds : Datastore) : Except LCErr (List Channel) :=
  match selectChannels roster nation gameID ds with
  | .error e => .error e
  | .ok channels =>
    match since with
    | some t =>
      let results := channels.map (CountSince query t)
      let merr := results.filterMap
        (fun r => match r with | .error e => some e | .ok _ => none)
      if merr.length > 0 then .error (.multi merr)
      else .ok (results.filterMap Except.toOption)
    | none =>
      .ok (channels.map (fun c =>
        { c with NMessagesSince := { c.NMessagesSince with NMessages := c.NMessages } }))

/-- One write-path call: the per-call inputs of `createMessage`. -/
structure CreateCall where
  sender : Nation
  members : Nations
  body : Str
  now : Nat
deriving DecidableEq, Repr

/-- A sequence of write-path calls, applied in order.  The datastore
transaction serializes concurrent appends to the same channel (same entity
group), so N successful concurrent calls are N successful sequential
applications in some order; `none` when any call fails. -/
def runCreates (roster : Nations) (gameID : Option Int) :
    List CreateCall → Datastore → Option Datastore
  | [], ds => some ds
  | call :: rest, ds =>
    match createMessage roster gameID call.sender call.members call.body call.now ds with
    | (ds2, .ok _) => runCreates roster gameID rest ds2
    | (_, .error _) => none

instance : IsTotal Message (fun a b => b.CreatedAt ≤ a.CreatedAt) :=
  ⟨fun a b => le_total b.CreatedAt a.CreatedAt⟩

instance : IsTrans Message (fun a b => b.CreatedAt ≤ a.CreatedAt) :=
  ⟨fun _ _ _ h1 h2 => le_trans h2 h1⟩

/-- Concrete fixtures (the spec's worked scenario: a three-nation roster). -/
def exRoster : Nations := ["ENGLAND".data, "FRANCE".data, "GERMANY".data]

/-- The empty datastore. -/
def exDs0 : Datastore := ⟨[], []⟩

/-- ENGLAND sends "hello" to the {ENGLAND, FRANCE} channel at time 5. -/
def exCall : CreateCall :=
  { sender := "ENGLAND".data, members := ["FRANCE".data, "ENGLAND".data],
    body := "hello".data, now := 5 }

/-- The datastore after `exCall` runs on the empty store. -/
def exDs1 : Datastore :=
  (createMessage exRoster (some 1) exCall.sender exCall.members exCall.body
    exCall.now exDs0).1

/-- The {ENGLAND, FRANCE} channel key of game 1. -/
def exKey : Key := ⟨channelKind, "1:ENGLAND,FRANCE".data, 0⟩

/-- The {ENGLAND, FRANCE} channel record after one message. -/
def exChan : Channel :=
  { GameID := some 1, Members := ["ENGLAND".data, "FRANCE".data], NMessages := 1,
    NMessagesSince := ⟨0, 0⟩ }

/-- The message list `listMessages` returns for the scenario. -/
def exMsgs : List Message :=
  [{ GameID := some 1, ChannelMembers := ["ENGLAND".data, "FRANCE".data],
     Sender := "ENGLAND".data, Body := "hello".data, CreatedAt := 5 }]

/-- A count-query oracle that always fails. -/
def exQueryFail : Key → Except Str Int := fun _ => .error "query failed".data

/-- A count-query oracle that always succeeds with 0. -/
def exQueryOk : Key → Except Str Int := fun _ => .ok 0

/-- Game 1's public channel record for `exRoster`. -/
def exPubChan : Channel :=
  { GameID := some 1, Members := ["ENGLAND".data, "FRANCE".data, "GERMANY".data],
    NMessages := 2, NMessagesSince := ⟨0, 0⟩ }

/-- The public channel key of game 1. -/
def exPubKey : Key := ⟨channelKind, "1:ENGLAND,FRANCE,GERMANY".data, 0⟩

/-- A store holding only the public channel. -/
def exDsPub : Datastore := ⟨[(exPubKey, exPubChan)], []⟩

/-- The public channel as rendered by `listChannels` without a cutoff. -/
def exPubListed : Channel :=
  { GameID := some 1, Members := ["ENGLAND".data, "FRANCE".data, "GERMANY".data],
    NMessages := 2, NMessagesSince := ⟨0, 2⟩ }

/-- Store well-formedness: every channel entity is stored under the key
`ChannelID` derives from its own fields (which is how the write path stores
them), and its member names contain no comma (so the comma-joined key
determines the member list). -/
def WellFormedChannels (ds : Datastore) : Prop :=
  ∀ p ∈ ds.channels, ChannelID (p.2).GameID (p.2).Members = .ok p.1 ∧
    ∀ m ∈ (p.2).Members, ',' ∉ m

section Lemmas

lemma mem_sortNations {l : Nations} {a : Nation} : a ∈ sortNations l ↔ a ∈ l := by
  simp [sortNations]

lemma sortNations_perm (l : Nations) : List.Perm (sortNations l) l :=
  List.perm_insertionSort _ _

lemma sortNations_sorted (l : Nations) : List.Sorted (· ≤ ·) (sortNations l) :=
  List.sorted_insertionSort _ _

lemma sortNations_eq_of_perm {l1 l2 : Nations} (h : List.Perm l1 l2) :
    sortNations l1 = sortNations l2 :=
  List.eq_of_perm_of_sorted
    ((sortNations_perm l1).trans (h.trans (sortNations_perm l2).symm))
    (sortNations_sorted l1) (sortNations_sorted l2)

lemma sortNations_idem (l : Nations) : sortNations (sortNations l) = sortNations l :=
  sortNations_eq_of_perm (sortNations_perm l)

lemma sortNations_length (l : Nations) : (sortNations l).length = l.length :=
  (sortNations_perm l).length_eq

lemma Includes_iff {n : Nations} {m : Nation} : Nations.Includes n m = true ↔ m ∈ n := by
  simp [Nations.Includes]

lemma lookupChannel_putChannel_same (l : List (Key × Channel)) (k : Key) (c : Channel) :
    lookupChannel (putChannel l k c) k = some c := by
  simp [lookupChannel, putChannel, List.find?_cons]

lemma find?_filter_key (l : List (Key × Channel)) (k s : Key) (h : s ≠ k) :
    (l.filter fun p => !(p.1 == k)).find? (fun p => p.1 == s) =
      l.find? (fun p => p.1 == s) := by
  induction l with
  | nil => rfl
  | cons x t ih =>
    by_cases hk : x.1 = k
    · have hxs : (x.1 == s) = false := by simp [hk, Ne.symm h]
      have hks : (k == s) = false := by simp [Ne.symm h]
      simp [List.filter_cons, hk, List.find?_cons, hxs, hks, ih]
    · by_cases hx : x.1 = s
      · simp [List.filter_cons, hk, List.find?_cons, hx, h]
      · simp [List.filter_cons, hk, List.find?_cons, hx, ih]

lemma lookupChannel_putChannel_other (l : List (Key × Channel)) (k s : Key)
    (c : Channel) (h : s ≠ k) :
    lookupChannel (putChannel l k c) s = lookupChannel l s := by
  have hk : (k == s) = false := by simp [Ne.symm h]
  simp [lookupChannel, putChannel, List.find?_cons, hk, find?_filter_key l k s h]

lemma digitChar_ne_colon {n : Nat} (h : n < 10) : digitChar n ≠ ':' := by
  interval_cases n <;> decide

lemma natDigits_colonFree : ∀ fuel n, ':' ∉ natDigits fuel n := by
  intro fuel
  induction fuel with
  | zero => intro n; simp [natDigits]
  | succ f ih =>
    intro n
    unfold natDigits
    by_cases h : n < 10
    · simp [h]
      exact fun he => digitChar_ne_colon h he.symm
    · simp [h, List.mem_append]
      refine ⟨ih _, fun he => ?_⟩
      exact digitChar_ne_colon (Nat.mod_lt _ (by norm_num)) he.symm

lemma intToStr_colonFree (i : Int) : ':' ∉ intToStr i := by
  unfold intToStr
  by_cases h : i < 0
  · simp only [if_pos h, List.mem_cons]
    rintro (he | hm)
    · exact absurd he (by decide)
    · exact natDigits_colonFree _ _ hm
  · simp only [if_neg h]
    exact natDigits_colonFree _ _

lemma append_cons_inj {c : Char} : ∀ {a b : Str} {a2 b2 : Str}, c ∉ a → c ∉ a2 →
    a ++ c :: b = a2 ++ c :: b2 → a = a2 ∧ b = b2 := by
  intro a
  induction a with
  | nil =>
    intro b a2 b2 _ ha2 heq
    cases a2 with
    | nil => simpa using heq
    | cons x t =>
      simp only [List.nil_append, List.cons_append, List.cons.injEq] at heq
      exact absurd (heq.1 ▸ List.mem_cons_self x t) ha2
  | cons x t ih =>
    intro b a2 b2 ha ha2 heq
    cases a2 with
    | nil =>
      simp only [List.cons_append, List.nil_append, List.cons.injEq] at heq
      exact absurd (heq.1 ▸ List.mem_cons_self x t) ha
    | cons y s =>
      simp only [List.cons_append, List.cons.injEq] at heq
      obtain ⟨rfl, heq⟩ := heq
      have ht := ih (List.not_mem_of_not_mem_cons ha)
        (List.not_mem_of_not_mem_cons ha2) heq
      exact ⟨by rw [ht.1], ht.2⟩

lemma comma_mem_joinComma_cons_cons (x y : Str) (t : List Str) :
    ',' ∈ joinComma (x :: y :: t) := by
  simp [joinComma]

lemma joinComma_inj : ∀ (l1 l2 : List Str), (∀ s ∈ l1, ',' ∉ s) →
    (∀ s ∈ l2, ',' ∉ s) → l1 ≠ [] → l2 ≠ [] →
    joinComma l1 = joinComma l2 → l1 = l2 := by
  intro l1
  induction l1 with
  | nil => intro _ _ _ hne _ _; exact absurd rfl hne
  | cons x t1 ih =>
    intro l2 h1 h2 _ hne2 heq
    cases l2 with
    | nil => exact absurd rfl hne2
    | cons y t2 =>
      cases t1 with
      | nil =>
        cases t2 with
        | nil => simpa [joinComma] using heq
        | cons z s2 =>
          rw [show joinComma [x] = x from rfl] at heq
          exact absurd (heq ▸ comma_mem_joinComma_cons_cons y z s2)
            (h1 x (List.mem_cons_self x []))
      | cons z s1 =>
        cases t2 with
        | nil =>
          rw [show joinComma [y] = y from rfl] at heq
          exact absurd (heq ▸ comma_mem_joinComma_cons_cons x z s1)
            (h2 y (List.mem_cons_self y []))
        | cons w s2 =>
          rw [show joinComma (x :: z :: s1) = x ++ ',' :: joinComma (z :: s1) from rfl,
            show joinComma (y :: w :: s2) = y ++ ',' :: joinComma (w :: s2) from rfl] at heq
          obtain ⟨hxy, hrest⟩ := append_cons_inj
            (h1 x (List.mem_cons_self x _)) (h2 y (List.mem_cons_self y _)) heq
          have := ih (w :: s2) (fun s hs => h1 s (List.mem_cons_of_mem x hs))
            (fun s hs => h2 s (List.mem_cons_of_mem y hs))
            (List.cons_ne_nil z s1) (List.cons_ne_nil w s2) hrest
          rw [hxy, this]

lemma splitComma_ne_nil : ∀ s : Str, splitComma s ≠ [] := by
  intro s
  cases s with
  | nil => simp [splitComma]
  | cons c rest =>
    unfold splitComma
    by_cases h : c = ','
    · simp [h]
    · simp only [if_neg h]
      cases splitComma rest <;> simp

lemma splitComma_commaFree {s : Str} (h : ',' ∉ s) : splitComma s = [s] := by
  induction s with
  | nil => rfl
  | cons c rest ih =>
    have hc : ¬c = ',' := fun he => h (he ▸ List.mem_cons_self c rest)
    have hr := ih (List.not_mem_of_not_mem_cons h)
    unfold splitComma
    rw [if_neg hc, hr]

lemma splitComma_append {x : Str} (s : Str) (h : ',' ∉ x) :
    splitComma (x ++ ',' :: s) = x :: splitComma s := by
  induction x with
  | nil => simp [splitComma]
  | cons c t ih =>
    have hc : ¬c = ',' := fun he => h (he ▸ List.mem_cons_self c t)
    have ht := ih (List.not_mem_of_not_mem_cons h)
    rw [List.cons_append]
    conv_lhs => rw [splitComma]
    rw [if_neg hc, ht]

lemma splitComma_joinComma : ∀ l : List Str, l ≠ [] → (∀ s ∈ l, ',' ∉ s) →
    splitComma (joinComma l) = l := by
  intro l
  induction l with
  | nil => intro hne _; exact absurd rfl hne
  | cons x t ih =>
    intro _ hcf
    cases t with
    | nil =>
      rw [show joinComma [x] = x from rfl]
      exact splitComma_commaFree (hcf x (List.mem_cons_self x []))
    | cons y s =>
      rw [show joinComma (x :: y :: s) = x ++ ',' :: joinComma (y :: s) from rfl,
        splitComma_append _ (hcf x (List.mem_cons_self x _)),
        ih (List.cons_ne_nil y s) (fun m hm => hcf m (List.mem_cons_of_mem x hm))]

lemma zip_all_beq_iff : ∀ (l1 l2 : Nations), l1.length = l2.length →
    ((((l1.zip l2).all fun p => p.1 == p.2) = true) ↔ l1 = l2) := by
  intro l1
  induction l1 with
  | nil =>
    intro l2 h
    cases l2 with
    | nil => simp
    | cons y s => simp at h
  | cons x t ih =>
    intro l2 h
    cases l2 with
    | nil => simp at h
    | cons y s =>
      have h2 : t.length = s.length := by simpa using h
      simp [List.zip_cons_cons, List.all_cons, Bool.and_eq_true, beq_iff_eq,
        ih s h2, List.cons.injEq]

lemma isPublic_iff (roster ms : Nations) :
    isPublic roster ms = true ↔ sortNations ms = publicChannel roster := by
  simp only [isPublic]
  by_cases h : (sortNations ms).length = (publicChannel roster).length
  · rw [if_neg (not_not_intro h)]
    rw [zip_all_beq_iff _ _ h.symm]
    exact ⟨Eq.symm, Eq.symm⟩
  · rw [if_pos h]
    constructor
    · intro he; exact absurd he Bool.false_ne_true
    · intro he; exact absurd (by rw [he]) h

lemma ChannelID_ok_iff {g : Option Int} {m : Nations} {k : Key} :
    ChannelID g m = .ok k ↔ ∃ id, g = some id ∧ id ≠ 0 ∧ 2 ≤ m.length ∧
      k = ⟨channelKind, intToStr id ++ ':' :: Nations.String m, 0⟩ := by
  unfold ChannelID
  cases g with
  | none => simp
  | some id =>
    by_cases h2 : m.length < 2
    · simp [h2]
    · by_cases h0 : id = 0
      · simp [h2, h0]
      · simp [h2, h0, eq_comm]
        omega

lemma ChannelID_isOk_iff {g : Option Int} {m : Nations} :
    (ChannelID g m).isOk = true ↔ ∃ id, g = some id ∧ id ≠ 0 ∧ 2 ≤ m.length := by
  constructor
  · intro h
    cases hk : ChannelID g m with
    | error e => rw [hk] at h; simp [Except.isOk, Except.toBool] at h
    | ok k =>
      obtain ⟨id, hg, h0, hl, _⟩ := ChannelID_ok_iff.mp hk
      exact ⟨id, hg, h0, hl⟩
  · rintro ⟨id, hg, h0, hl⟩
    have : ChannelID g m = .ok ⟨channelKind, intToStr id ++ ':' :: Nations.String m, 0⟩ :=
      ChannelID_ok_iff.mpr ⟨id, hg, h0, hl, rfl⟩
    rw [this]; rfl

lemma ChannelID_same_key {g1 g2 : Option Int} {m1 m2 : Nations} {k : Key}
    (h1 : ChannelID g1 m1 = .ok k) (h2 : ChannelID g2 m2 = .ok k)
    (hc1 : ∀ s ∈ m1, ',' ∉ s) (hc2 : ∀ s ∈ m2, ',' ∉ s) : m1 = m2 := by
  obtain ⟨id1, _, _, hl1, hk1⟩ := ChannelID_ok_iff.mp h1
  obtain ⟨id2, _, _, hl2, hk2⟩ := ChannelID_ok_iff.mp h2
  rw [hk1] at hk2
  have hs : intToStr id1 ++ ':' :: Nations.String m1 =
      intToStr id2 ++ ':' :: Nations.String m2 := congrArg Key.stringID hk2
  obtain ⟨_, hjoin⟩ := append_cons_inj (intToStr_colonFree id1) (intToStr_colonFree id2) hs
  exact joinComma_inj m1 m2 hc1 hc2 (by rintro rfl; simp at hl1)
    (by rintro rfl; simp at hl2) hjoin

lemma createMessage_ok_effects (roster : Nations) (gameID : Option Int) (sender : Nation)
    (postMembers : Nations) (body : Str) (now : Nat) (ds ds' : Datastore) (msg : Message)
    (h : createMessage roster gameID sender postMembers body now ds = (ds', .ok msg)) :
    ∃ ch, ChannelID gameID (sortNations postMembers) = .ok ch ∧
      msg = { GameID := gameID, ChannelMembers := sortNations postMembers, Sender := sender,
              Body := body, CreatedAt := now } ∧
      Nations.Includes (sortNations postMembers) sender = true ∧
      (∀ m ∈ sortNations postMembers, Nations.Includes roster m = true) ∧
      nMessagesAt ds' ch = nMessagesAt ds ch + 1 ∧
      messagesUnder ds' ch = messagesUnder ds ch + 1 ∧
      (∀ k, k ≠ ch → nMessagesAt ds' k = nMessagesAt ds k) ∧
      (∀ k, k ≠ ch → messagesUnder ds' k = messagesUnder ds k) ∧
      (lookupChannel ds.channels ch = none →
        lookupChannel ds'.channels ch =
          some { GameID := gameID, Members := sortNations postMembers, NMessages := 1,
                 NMessagesSince := ⟨0, 0⟩ }) := by
  simp only [createMessage] at h
  split at h
  · exact absurd (congrArg Prod.snd h) (by simp)
  next hsend =>
    split at h
    · exact absurd (congrArg Prod.snd h) (by simp)
    next hroster =>
      split at h
      next e heq => exact absurd (congrArg Prod.snd h) (by simp)
      next ch heq =>
        refine ⟨ch, heq, ?_⟩
        obtain ⟨hds, hm⟩ := Prod.mk.injEq _ _ _ _ ▸ h
        injection hm with hm2
        subst hm2
        subst hds
        refine ⟨rfl, by simpa using hsend, ?_, ?_, ?_, ?_, ?_, ?_⟩
        · intro m hm
          have := hroster
          simp only [List.any_eq_true, not_exists, not_and, Bool.not_eq_true] at this
          simpa using this m hm
        · cases hl : lookupChannel ds.channels ch with
          | some c => simp [nMessagesAt, lookupChannel_putChannel_same, hl]
          | none => simp [nMessagesAt, lookupChannel_putChannel_same, hl]
        · simp [messagesUnder, List.filter_append]
        · intro k hk
          cases hl : lookupChannel ds.channels ch <;>
            simp [hl, nMessagesAt, lookupChannel_putChannel_other _ _ _ _ hk]
        · intro k hk
          have : (ch == k) = false := by simp [Ne.symm hk]
          simp [messagesUnder, List.filter_append, this]
        · intro hl
          rw [hl]
          simp [lookupChannel_putChannel_same]

lemma createMessage_preserves_invariant (roster : Nations) (gameID : Option Int)
    (sender : Nation) (postMembers : Nations) (body : Str) (now : Nat)
    (ds ds' : Datastore) (msg : Message)
    (h : createMessage roster gameID sender postMembers body now ds = (ds', .ok msg))
    (hinv : CounterInvariant ds) : CounterInvariant ds' := by
  obtain ⟨ch, _, _, _, _, h1, h2, h3, h4, _⟩ :=
    createMessage_ok_effects roster gameID sender postMembers body now ds ds' msg h
  intro k
  by_cases hk : k = ch
  · subst hk
    rw [h1, h2, hinv k]
    push_cast
    ring
  · rw [h3 k hk, h4 k hk, hinv k]

lemma runCreates_counts (roster : Nations) (gameID : Option Int) :
    ∀ (calls : List CreateCall) (ch : Key) (ds ds' : Datastore),
    runCreates roster gameID calls ds = some ds' →
    (∀ call ∈ calls, ChannelID gameID (sortNations call.members) = .ok ch) →
    nMessagesAt ds' ch = nMessagesAt ds ch + calls.length ∧
    messagesUnder ds' ch = messagesUnder ds ch + calls.length := by
  intro calls
  induction calls with
  | nil =>
    intro ch ds ds' h _
    simp only [runCreates, Option.some.injEq] at h
    subst h
    simp
  | cons call rest ih =>
    intro ch ds ds' h hall
    rw [runCreates] at h
    cases hc : createMessage roster gameID call.sender call.members call.body call.now ds with
    | mk ds2 res =>
      rw [hc] at h
      cases res with
      | error e => simp at h
      | ok m =>
        simp only at h
        obtain ⟨ch2, hch2, _, _, _, h1, h2, _, _, _⟩ :=
          createMessage_ok_effects roster gameID call.sender call.members call.body
            call.now ds ds2 m hc
        have hche : ch2 = ch := by
          have := hall call (List.mem_cons_self call rest)
          rw [this] at hch2
          exact (Except.ok.injEq _ _ ▸ hch2).symm
        rw [hche] at h1 h2
        obtain ⟨a1, a2⟩ := ih ch ds2 ds' h
          (fun c hcm => hall c (List.mem_cons_of_mem call hcm))
        constructor
        · rw [a1, h1]
          simp only [List.length_cons]
          push_cast
          omega
        · rw [a2, h2]
          simp only [List.length_cons]
          omega

lemma Includes_eq_false_iff {n : Nations} {m : Nation} :
    Nations.Includes n m = false ↔ m ∉ n := by
  rw [← Bool.not_eq_true, Includes_iff]

lemma Includes_sortNations (l : Nations) (m : Nation) :
    Nations.Includes (sortNations l) m = Nations.Includes l m := by
  by_cases h : m ∈ l
  · rw [Includes_iff.mpr h, Includes_iff.mpr (mem_sortNations.mpr h)]
  · rw [Includes_eq_false_iff.mpr h,
      Includes_eq_false_iff.mpr (fun hc => h (mem_sortNations.mp hc))]

lemma createMessage_forbidden (roster : Nations) (gameID : Option Int) (sender : Nation)
    (postMembers : Nations) (body : Str) (now : Nat) (ds : Datastore)
    (hmem : Nations.Includes postMembers sender = false) :
    createMessage roster gameID sender postMembers body now ds = (ds, .error .forbidden) := by
  have hc : (!(Nations.Includes (sortNations postMembers) sender)) = true := by
    rw [Includes_sortNations, hmem]
    rfl
  simp only [createMessage]
  rw [if_pos hc]

lemma createMessage_unknownMember (roster : Nations) (gameID : Option Int) (sender : Nation)
    (postMembers : Nations) (body : Str) (now : Nat) (ds : Datastore)
    (hmem : Nations.Includes postMembers sender = true)
    (hbad : ∃ m ∈ postMembers, Nations.Includes roster m = false) :
    createMessage roster gameID sender postMembers body now ds = (ds, .error .unknownMember) := by
  have hc1 : ¬((!(Nations.Includes (sortNations postMembers) sender)) = true) := by
    rw [Includes_sortNations, hmem]
    decide
  have hc2 : (sortNations postMembers).any (fun m => !(Nations.Includes roster m)) = true := by
    rw [List.any_eq_true]
    obtain ⟨m, hm, hmf⟩ := hbad
    exact ⟨m, mem_sortNations.mpr hm, by rw [hmf]; rfl⟩
  simp only [createMessage]
  rw [if_neg hc1, if_pos hc2]

lemma nMessagesAt_of_none {ds : Datastore} {k : Key}
    (h : lookupChannel ds.channels k = none) : nMessagesAt ds k = 0 := by
  simp [nMessagesAt, h]

lemma sortMessagesDesc_sorted (l : List Message) :
    List.Sorted (fun a b : Message => b.CreatedAt ≤ a.CreatedAt) (sortMessagesDesc l) :=
  List.sorted_insertionSort _ l

lemma sortMessagesDesc_perm (l : List Message) : List.Perm (sortMessagesDesc l) l :=
  List.perm_insertionSort _ l

lemma mem_sortMessagesDesc {l : List Message} {m : Message} :
    m ∈ sortMessagesDesc l ↔ m ∈ l :=
  (sortMessagesDesc_perm l).mem_iff

lemma lookupChannel_eq_some {l : List (Key × Channel)} {k : Key} {c : Channel}
    (h : lookupChannel l k = some c) : (k, c) ∈ l := by
  simp only [lookupChannel, Option.map_eq_some'] at h
  obtain ⟨p, hp, hpc⟩ := h
  have hmem := List.mem_of_find?_eq_some hp
  have hkey := List.find?_some hp
  cases p with
  | mk k2 c2 =>
    simp only at hkey hpc
    have : k2 = k := by simpa using hkey
    rw [← this, ← hpc]
    exact hmem

lemma listMessages_forbidden_iff (roster : Nations) (nation : Nation)
    (gameID : Option Int) (membersParam : Str) (since : Option Nat) (ds : Datastore) :
    listMessages roster nation gameID membersParam since ds = .error .forbidden ↔
      (Nations.Includes (Nations.FromString membersParam) nation = false ∧
        isPublic roster (Nations.FromString membersParam) = false) := by
  simp only [listMessages]
  by_cases hcond : (!(Nations.Includes (Nations.FromString membersParam) nation) &&
      !(isPublic roster (Nations.FromString membersParam))) = true
  · rw [if_pos hcond]
    simp only [Bool.and_eq_true, Bool.not_eq_true'] at hcond
    simp [hcond]
  · rw [if_neg hcond]
    simp only [Bool.and_eq_true, Bool.not_eq_true', not_and] at hcond
    constructor
    · intro h
      exfalso
      revert h
      cases ChannelID gameID (queryMembersOf nation (Nations.FromString membersParam)) <;> simp
    · rintro ⟨h1, h2⟩
      exact absurd h2 (hcond h1)

lemma CountSince_ok_members {query : Key → Except Str Int} {t : Nat} {c c2 : Channel}
    (h : CountSince query t c = .ok c2) : c2.Members = c.Members := by
  simp only [CountSince] at h
  split at h
  · exact absurd h (by simp)
  · split at h
    · exact absurd h (by simp)
    · injection h with h2
      rw [← h2]

lemma selectChannels_observer_empty (roster : Nations) (gameID : Option Int)
    (ds : Datastore) (k : Key)
    (hk : ChannelID gameID (publicChannel roster) = .ok k)
    (hnone : lookupChannel ds.channels k = none) :
    selectChannels roster [] gameID ds = .ok [] := by
  simp only [selectChannels, reduceIte, hk, hnone]

lemma selectChannels_observer (roster : Nations) (gameID : Option Int)
    (ds : Datastore) (cs : List Channel)
    (hwf : WellFormedChannels ds) (hroster : ∀ m ∈ roster, ',' ∉ m)
    (hsel : selectChannels roster [] gameID ds = .ok cs) :
    cs.length ≤ 1 ∧ (∀ c ∈ cs, isPublic roster c.Members = true) ∧
    (∀ k, ChannelID gameID (publicChannel roster) = .ok k →
      lookupChannel ds.channels k = none → cs = []) := by
  simp only [selectChannels, reduceIte] at hsel
  split at hsel
  next e heq => exact absurd hsel (by simp)
  next k heq =>
    split at hsel
    next c hl =>
      injection hsel with hcs
      subst hcs
      refine ⟨by simp, ?_, ?_⟩
      · intro c2 hc2
        rw [List.mem_singleton] at hc2
        subst hc2
        obtain ⟨hcid, hcf⟩ := hwf (k, c2) (lookupChannel_eq_some hl)
        have hmem : c2.Members = publicChannel roster :=
          ChannelID_same_key hcid heq hcf
            (fun m hm => hroster m (mem_sortNations.mp hm))
        rw [isPublic_iff, hmem]
        exact sortNations_idem roster
      · intro k2 hk2 hnone
        rw [heq] at hk2
        injection hk2 with hk2e
        rw [← hk2e] at hnone
        rw [hnone] at hl
        exact absurd hl (by simp)
    next hl =>
      injection hsel with hcs
      subst hcs
      exact ⟨by simp, by simp, fun _ _ _ => rfl⟩

end Lemmas

example : Nations.FromString "ENGLAND,FRANCE".data = ["ENGLAND".data, "FRANCE".data] := by decide
example : Nations.FromString [] = [[]] := by decide
example : sortNations ["B".data, "A".data] = ["A".data, "B".data] := by decide
example : (ChannelID (some 1) ["B".data, "A".data]).isOk = true := by decide
example : ChannelID (some 1) ["B".data, "A".data] ≠ ChannelID (some 1) ["A".data, "B".data] := by decide
example : (ChannelID (some 0) ["A".data, "B".data]).isOk = false := by decide
example : (ChannelID none ["A".data, "B".data]).isOk = false := by decide
example : (ChannelID (some 1) ["A".data]).isOk = false := by decide

/-- C1 (counterexample): `ChannelID` is not permutation-invariant as
claimed.  The member lists `["B", "A"]` and `["A", "B"]` are permutations of
each other and both are accepted for game id 1, yet the derived keys differ
(`"1:B,A"` vs `"1:A,B"`): `ChannelID` itself never sorts its argument. -/
theorem c1_counterexample :
    List.Perm (["B".data, "A".data] : Nations) ["A".data, "B".data] ∧
    (ChannelID (some 1) ["B".data, "A".data]).isOk = true ∧
    (ChannelID (some 1) ["A".data, "B".data]).isOk = true ∧
    ChannelID (some 1) ["B".data, "A".data] ≠ ChannelID (some 1) ["A".data, "B".data] := by
  refine ⟨?_, ?_, ?_, ?_⟩ <;> decide

/-- C1 (amended): channel key derivation is permutation-invariant for the
sorted member sets its callers feed it (`createMessage` sorts the posted
set, and `isPublic` sorts in place on `listMessages`' public path): for any
game identifier and any permutation-equal member sets M1, M2, deriving the
key from their sorted forms gives the same result. -/
theorem c1_channel_key_sorted_permutation_invariant (gameID : Option Int)
    (m1 m2 : Nations) (h : List.Perm m1 m2) :
    ChannelID gameID (sortNations m1) = ChannelID gameID (sortNations m2) := by
  rw [sortNations_eq_of_perm h]

/-- C1 witness: the amended statement at game id 1 and the swapped pair. -/
theorem c1_witness :
    ChannelID (some 1) (sortNations ["B".data, "A".data]) =
      ChannelID (some 1) (sortNations ["A".data, "B".data]) :=
  c1_channel_key_sorted_permutation_invariant (some 1) _ _
    (List.Perm.swap "A".data "B".data [])

/-- C9: channel key derivation fails exactly when the game identifier is
missing (nil), its integer id is zero, or the member set has fewer than 2
elements; on every other input it succeeds. -/
theorem c9_channel_key_failure_condition (gameID : Option Int) (members : Nations) :
    (ChannelID gameID members).isOk = false ↔
      (gameID = none ∨ gameID = some 0 ∨ members.length < 2) := by
  constructor
  · intro h
    by_contra hc
    push_neg at hc
    obtain ⟨h1, h2, h3⟩ := hc
    cases gameID with
    | none => exact h1 rfl
    | some id =>
      have hid : id ≠ 0 := fun h0 => h2 (by rw [h0])
      have : (ChannelID (some id) members).isOk = true :=
        ChannelID_isOk_iff.mpr ⟨id, rfl, hid, h3⟩
      rw [this] at h
      exact absurd h (by decide)
  · intro h
    cases hk : (ChannelID gameID members).isOk with
    | false => rfl
    | true =>
      obtain ⟨id, hg, h0, hl⟩ := ChannelID_isOk_iff.mp hk
      subst hg
      rcases h with h | h | h
      · exact absurd h (by simp)
      · injection h with he
        exact absurd he h0
      · omega

/-- C10: participant-set serialization round-trips: for every non-empty
`Nations` sequence with comma-free identifiers, `FromString` applied to the
comma-joined `String` form reproduces the sequence element for element;
`FromString` never yields an empty sequence, and on the empty string it
yields the one-element sequence holding the empty identifier. -/
theorem c10_nations_roundtrip :
    (∀ n : Nations, n ≠ [] → (∀ s ∈ n, ',' ∉ s) →
      Nations.FromString (Nations.String n) = n) ∧
    (∀ s : Str, Nations.FromString s ≠ []) ∧
    Nations.FromString [] = [[]] :=
  ⟨fun n hne hcf => splitComma_joinComma n hne hcf, splitComma_ne_nil, rfl⟩

/-- C10 witness: the round trip on the scenario's two-nation set. -/
theorem c10_witness :
    Nations.FromString (Nations.String ["ENGLAND".data, "FRANCE".data]) =
      ["ENGLAND".data, "FRANCE".data] :=
  c10_nations_roundtrip.1 ["ENGLAND".data, "FRANCE".data] (by decide) (by decide)

/-- C4: a successful `listMessages` call returns exactly the messages owned
by the derived channel whose `CreatedAt` is strictly greater than the cutoff
(all owned messages when no cutoff was supplied), ordered by `CreatedAt`
descending (newest first): the result is sorted descending, is a
permutation of the filtered owned records, and a message is in the result
iff it is owned by the channel and beats the cutoff. -/
theorem c4_list_messages_filter_sorted (roster : Nations) (nation : Nation)
    (gameID : Option Int) (membersParam : Str) (since : Option Nat) (ds : Datastore)
    (msgs : List Message)
    (h : listMessages roster nation gameID membersParam since ds = .ok msgs) :
    List.Sorted (fun a b : Message => b.CreatedAt ≤ a.CreatedAt) msgs ∧
    ∃ ch, ChannelID gameID (queryMembersOf nation (Nations.FromString membersParam)) =
        .ok ch ∧
      List.Perm msgs ((ds.messages.filter
        (fun p => p.1 == ch && sinceFilter since p.2)).map Prod.snd) ∧
      ∀ m : Message, m ∈ msgs ↔
        ((ch, m) ∈ ds.messages ∧ ∀ t, since = some t → t < m.CreatedAt) := by
  simp only [listMessages] at h
  split at h
  · exact absurd h (by simp)
  · split at h
    next e heq => exact absurd h (by simp)
    next ch heq =>
      injection h with h2
      subst h2
      refine ⟨sortMessagesDesc_sorted _, ch, heq, sortMessagesDesc_perm _, ?_⟩
      intro m
      rw [mem_sortMessagesDesc]
      simp only [List.mem_map, List.mem_filter]
      constructor
      · rintro ⟨p, ⟨hp, hq⟩, rfl⟩
        obtain ⟨hk, hs⟩ := Bool.and_eq_true _ _ |>.mp hq
        have hp1 : p.1 = ch := by simpa using hk
        refine ⟨?_, ?_⟩
        · have hpe : p = (ch, p.2) := by rw [← hp1]
          exact hpe ▸ hp
        · intro t ht
          rw [ht] at hs
          simpa [sinceFilter] using hs
      · rintro ⟨hmem, hsince⟩
        refine ⟨(ch, m), ⟨hmem, ?_⟩, rfl⟩
        refine Bool.and_eq_true _ _ |>.mpr ⟨by simp, ?_⟩
        cases since with
        | none => rfl
        | some t => simpa [sinceFilter] using hsince t rfl

/-- C4 witness: listing the scenario channel with cutoff 3 returns its one
message, which was created at time 5 > 3, and the result is sorted. -/
theorem c4_witness :
    List.Sorted (fun a b : Message => b.CreatedAt ≤ a.CreatedAt) exMsgs ∧
    ∃ ch, ChannelID (some 1) (queryMembersOf "ENGLAND".data
        (Nations.FromString "ENGLAND,FRANCE".data)) = .ok ch ∧
      List.Perm exMsgs ((exDs1.messages.filter
        (fun p => p.1 == ch && sinceFilter (some 3) p.2)).map Prod.snd) ∧
      ∀ m : Message, m ∈ exMsgs ↔
        ((ch, m) ∈ exDs1.messages ∧ ∀ t, (some 3 : Option Nat) = some t → t < m.CreatedAt) :=
  c4_list_messages_filter_sorted exRoster "ENGLAND".data (some 1)
    "ENGLAND,FRANCE".data (some 3) exDs1 exMsgs (by decide)

/-- C5: reading a channel's messages fails with Forbidden exactly when the
requester's role is not a member of the channel's participant set and that
set is not the public channel (the sorted full roster); in particular any
requester — including an observer with no role — can read the public
channel without a Forbidden failure. -/
theorem c5_read_forbidden_iff (roster : Nations) (nation : Nation)
    (gameID : Option Int) (membersParam : Str) (since : Option Nat) (ds : Datastore) :
    (listMessages roster nation gameID membersParam since ds = .error .forbidden ↔
      (Nations.Includes (Nations.FromString membersParam) nation = false ∧
        sortNations (Nations.FromString membersParam) ≠ publicChannel roster)) ∧
    (isPublic roster (Nations.FromString membersParam) = true →
      listMessages roster nation gameID membersParam since ds ≠ .error .forbidden) := by
  have hf := listMessages_forbidden_iff roster nation gameID membersParam since ds
  constructor
  · rw [hf]
    constructor
    · rintro ⟨h1, h2⟩
      refine ⟨h1, fun he => ?_⟩
      rw [← isPublic_iff] at he
      rw [he] at h2
      exact absurd h2 (by decide)
    · rintro ⟨h1, h2⟩
      refine ⟨h1, ?_⟩
      cases hp : isPublic roster (Nations.FromString membersParam) with
      | false => rfl
      | true => exact absurd (isPublic_iff _ _ |>.mp hp) h2
  · intro hp he
    rw [hf] at he
    rw [hp] at he
    exact absurd he.2 (by decide)

/-- C5 witness: GERMANY is refused on the {ENGLAND, FRANCE} channel, while
an observer (no role) reads the public channel without a Forbidden
failure. -/
theorem c5_witness :
    listMessages exRoster "GERMANY".data (some 1) "ENGLAND,FRANCE".data none exDs1 =
      .error .forbidden ∧
    listMessages exRoster [] (some 1) "ENGLAND,FRANCE,GERMANY".data none exDs1 ≠
      .error .forbidden := by
  constructor
  · exact (c5_read_forbidden_iff exRoster "GERMANY".data (some 1)
      "ENGLAND,FRANCE".data none exDs1).1.mpr (by decide)
  · exact (c5_read_forbidden_iff exRoster [] (some 1)
      "ENGLAND,FRANCE,GERMANY".data none exDs1).2 (by decide)

/-- C6 (counterexample): the two rejection rules are checked in sequence,
membership first.  GERMANY sending to {ENGLAND, X} — where X is not in the
roster — violates both rules, and the call is rejected with Forbidden (403),
not InvalidArgument (400), so the InvalidArgument rule does not hold
unconditionally. -/
theorem c6_counterexample :
    Nations.Includes ["ENGLAND".data, "X".data] "GERMANY".data = false ∧
    (∃ m ∈ (["ENGLAND".data, "X".data] : Nations),
      Nations.Includes exRoster m = false) ∧
    createMessage exRoster (some 1) "GERMANY".data ["ENGLAND".data, "X".data]
      "hi".data 0 exDs0 = (exDs0, .error CMErr.forbidden) ∧
    createMessage exRoster (some 1) "GERMANY".data ["ENGLAND".data, "X".data]
      "hi".data 0 exDs0 ≠ (exDs0, .error CMErr.unknownMember) := by
  refine ⟨?_, ?_, ?_, ?_⟩ <;> decide

/-- C6 (amended): a message-create call is rejected with Forbidden, store
untouched, when the sender is not a member of the destination set; it is
rejected with InvalidArgument, store untouched, when the sender is a member
and some destination member is not registered in the roster (membership is
checked first); and every persisted message has its sender among its
channel members and its channel members inside the roster. -/
theorem c6_send_validation (roster : Nations) (gameID : Option Int)
    (sender : Nation) (postMembers : Nations) (body : Str) (now : Nat) (ds : Datastore) :
    (Nations.Includes postMembers sender = false →
      createMessage roster gameID sender postMembers body now ds =
        (ds, .error .forbidden)) ∧
    (Nations.Includes postMembers sender = true →
      (∃ m ∈ postMembers, Nations.Includes roster m = false) →
      createMessage roster gameID sender postMembers body now ds =
        (ds, .error .unknownMember)) ∧
    (∀ ds' msg, createMessage roster gameID sender postMembers body now ds =
        (ds', .ok msg) →
      msg.Sender ∈ msg.ChannelMembers ∧ ∀ m ∈ msg.ChannelMembers, m ∈ roster) := by
  refine ⟨createMessage_forbidden roster gameID sender postMembers body now ds,
    createMessage_unknownMember roster gameID sender postMembers body now ds, ?_⟩
  intro ds' msg h
  obtain ⟨ch, _, hmsg, hsend, hall, _⟩ :=
    createMessage_ok_effects roster gameID sender postMembers body now ds ds' msg h
  subst hmsg
  exact ⟨Includes_iff.mp hsend, fun m hm => Includes_iff.mp (hall m hm)⟩

/-- C6 witness: GERMANY sending to {ENGLAND, FRANCE} is Forbidden; ENGLAND
sending to {ENGLAND, X} is InvalidArgument; ENGLAND's persisted message to
{FRANCE, ENGLAND} has a member sender and roster members. -/
theorem c6_witness :
    createMessage exRoster (some 1) "GERMANY".data ["FRANCE".data, "ENGLAND".data]
      "hello".data 5 exDs0 = (exDs0, .error CMErr.forbidden) ∧
    createMessage exRoster (some 1) "ENGLAND".data ["ENGLAND".data, "X".data]
      "hello".data 5 exDs0 = (exDs0, .error CMErr.unknownMember) ∧
    ("ENGLAND".data ∈ (["ENGLAND".data, "FRANCE".data] : Nations) ∧
      ∀ m ∈ (["ENGLAND".data, "FRANCE".data] : Nations), m ∈ exRoster) := by
  refine ⟨?_, ?_, ?_⟩
  · exact (c6_send_validation exRoster (some 1) "GERMANY".data
      ["FRANCE".data, "ENGLAND".data] "hello".data 5 exDs0).1 (by decide)
  · exact (c6_send_validation exRoster (some 1) "ENGLAND".data
      ["ENGLAND".data, "X".data] "hello".data 5 exDs0).2.1 (by decide)
      ⟨"X".data, by decide, by decide⟩
  · have := (c6_send_validation exRoster (some 1) "ENGLAND".data
      ["FRANCE".data, "ENGLAND".data] "hello".data 5 exDs0).2.2
      ((createMessage exRoster (some 1) "ENGLAND".data ["FRANCE".data, "ENGLAND".data]
        "hello".data 5 exDs0).1)
      { GameID := some 1, ChannelMembers := ["ENGLAND".data, "FRANCE".data],
        Sender := "ENGLAND".data, Body := "hello".data, CreatedAt := 5 } (by decide)
    exact this

/-- C8 (counterexample): sending to a destination set containing an
unregistered identifier does not always fail with InvalidArgument: when the
sender is also not a member of the set (FRANCE sending to {ENGLAND, X}),
the membership check fires first and the call fails with Forbidden.  The
store is still untouched. -/
theorem c8_counterexample :
    (∃ m ∈ (["ENGLAND".data, "X".data] : Nations),
      Nations.Includes exRoster m = false) ∧
    createMessage exRoster (some 1) "FRANCE".data ["ENGLAND".data, "X".data]
      "hi".data 0 exDs1 ≠ (exDs1, .error CMErr.unknownMember) ∧
    createMessage exRoster (some 1) "FRANCE".data ["ENGLAND".data, "X".data]
      "hi".data 0 exDs1 = (exDs1, .error CMErr.forbidden) := by
  refine ⟨?_, ?_, ?_⟩ <;> decide

/-- C8 (amended): a message-create call whose destination set contains an
unregistered identifier and whose sender belongs to the destination set
fails with InvalidArgument before any mutation: the store is returned
unchanged, so no message record is created, no channel record is created,
and every channel counter is unchanged.  (When the sender is also not a
member, the call still fails before any mutation, but with Forbidden.) -/
theorem c8_invalid_member_rejected_before_mutation (roster : Nations)
    (gameID : Option Int) (sender : Nation) (postMembers : Nations) (body : Str)
    (now : Nat) (ds : Datastore)
    (hmem : Nations.Includes postMembers sender = true)
    (hbad : ∃ m ∈ postMembers, Nations.Includes roster m = false) :
    createMessage roster gameID sender postMembers body now ds =
      (ds, .error .unknownMember) ∧
    (createMessage roster gameID sender postMembers body now ds).1 = ds ∧
    (∀ k, nMessagesAt (createMessage roster gameID sender postMembers body now ds).1 k =
        nMessagesAt ds k ∧
      messagesUnder (createMessage roster gameID sender postMembers body now ds).1 k =
        messagesUnder ds k) := by
  have h := createMessage_unknownMember roster gameID sender postMembers body now ds hmem hbad
  rw [h]
  exact ⟨rfl, rfl, fun _ => ⟨rfl, rfl⟩⟩

/-- C8 witness: ENGLAND sending to {ENGLAND, X} against the populated store
is rejected with InvalidArgument and the store is unchanged. -/
theorem c8_witness :
    createMessage exRoster (some 1) "ENGLAND".data ["ENGLAND".data, "X".data]
      "hi".data 7 exDs1 = (exDs1, .error CMErr.unknownMember) ∧
    (createMessage exRoster (some 1) "ENGLAND".data ["ENGLAND".data, "X".data]
      "hi".data 7 exDs1).1 = exDs1 := by
  obtain ⟨h1, h2, _⟩ := c8_invalid_member_rejected_before_mutation exRoster (some 1)
    "ENGLAND".data ["ENGLAND".data, "X".data] "hi".data 7 exDs1 (by decide)
    ⟨"X".data, by decide, by decide⟩
  exact ⟨h1, h2⟩

/-- C2: every successful message-create call increments the owning
channel's persisted counter by exactly 1 and appends exactly one message
record under that channel; a previously absent channel is initialized with
counter 0 and the given (sorted) member set before the increment, so it is
visible afterwards with counter 1; the invariant that `NMessages` equals
the number of owned message records is preserved.  Consequently, since the
datastore transaction serializes concurrent appends to one channel, N
successful calls targeting the same channel of an initially absent channel
leave the counter and the record count at exactly N. -/
theorem c2_message_create_counter :
    (∀ (roster : Nations) (gameID : Option Int) (sender : Nation)
        (postMembers : Nations) (body : Str) (now : Nat) (ds ds' : Datastore)
        (msg : Message),
      createMessage roster gameID sender postMembers body now ds = (ds', .ok msg) →
      ∃ ch, ChannelID gameID (sortNations postMembers) = .ok ch ∧
        nMessagesAt ds' ch = nMessagesAt ds ch + 1 ∧
        messagesUnder ds' ch = messagesUnder ds ch + 1 ∧
        (lookupChannel ds.channels ch = none →
          lookupChannel ds'.channels ch =
            some { GameID := gameID, Members := sortNations postMembers,
                   NMessages := 0 + 1, NMessagesSince := ⟨0, 0⟩ }) ∧
        (CounterInvariant ds → CounterInvariant ds')) ∧
    (∀ (roster : Nations) (gameID : Option Int) (calls : List CreateCall)
        (ch : Key) (ds ds' : Datastore),
      runCreates roster gameID calls ds = some ds' →
      (∀ call ∈ calls, ChannelID gameID (sortNations call.members) = .ok ch) →
      lookupChannel ds.channels ch = none → messagesUnder ds ch = 0 →
      nMessagesAt ds' ch = calls.length ∧ messagesUnder ds' ch = calls.length) := by
  constructor
  · intro roster gameID sender postMembers body now ds ds' msg h
    obtain ⟨ch, hch, _, _, _, h1, h2, _, _, hinit⟩ :=
      createMessage_ok_effects roster gameID sender postMembers body now ds ds' msg h
    exact ⟨ch, hch, h1, h2, hinit,
      createMessage_preserves_invariant roster gameID sender postMembers body now
        ds ds' msg h⟩
  · intro roster gameID calls ch ds ds' hrun hall hnone hzero
    obtain ⟨a1, a2⟩ := runCreates_counts roster gameID calls ch ds ds' hrun hall
    rw [nMessagesAt_of_none hnone] at a1
    rw [hzero] at a2
    exact ⟨by rw [a1]; ring, by rw [a2]; omega⟩

/-- C2 witness: the scenario call on the empty store materializes the
{ENGLAND, FRANCE} channel and leaves counter 1 and one record; as an
N-calls instance with N = 1, counter and record count are exactly 1. -/
theorem c2_witness :
    nMessagesAt exDs1 exKey = ([exCall].length : Int) ∧
    messagesUnder exDs1 exKey = [exCall].length :=
  c2_message_create_counter.2 exRoster (some 1) [exCall] exKey exDs0 exDs1
    (by decide) (by decide) (by decide) (by decide)

/-- C3: in the channel-listing operation with a cutoff supplied, if one or
more per-channel count queries fail, the whole operation fails with the
aggregated MultiError, which contains every underlying failure (failures
are collected, not short-circuited) and nothing else; no channel list is
returned. -/
theorem c3_fanout_error_aggregation (query : Key → Except Str Int) (roster : Nations)
    (nation : Nation) (gameID : Option Int) (t : Nat) (ds : Datastore)
    (channels : List Channel)
    (hsel : selectChannels roster nation gameID ds = .ok channels)
    (hfail : ∃ c ∈ channels, ∃ e, CountSince query t c = .error e) :
    ∃ errs, listChannels query roster nation gameID (some t) ds = .error (.multi errs) ∧
      errs ≠ [] ∧
      (∀ c ∈ channels, ∀ e, CountSince query t c = .error e → e ∈ errs) ∧
      (∀ e ∈ errs, ∃ c ∈ channels, CountSince query t c = .error e) := by
  refine ⟨(channels.map (CountSince query t)).filterMap
    (fun r => match r with | .error e => some e | .ok _ => none), ?_, ?_, ?_, ?_⟩
  case refine_2 =>
    obtain ⟨c, hc, e, he⟩ := hfail
    refine List.ne_nil_of_mem (a := e) ?_
    rw [List.mem_filterMap]
    exact ⟨CountSince query t c, List.mem_map_of_mem _ hc, by rw [he]⟩
  case refine_3 =>
    intro c hc e he
    rw [List.mem_filterMap]
    exact ⟨CountSince query t c, List.mem_map_of_mem _ hc, by rw [he]⟩
  case refine_1 =>
    simp only [listChannels, hsel]
    have hpos : 0 < ((channels.map (CountSince query t)).filterMap
        (fun r => match r with | .error e => some e | .ok _ => none)).length := by
      rw [List.length_pos]
      obtain ⟨c, hc, e, he⟩ := hfail
      refine List.ne_nil_of_mem (a := e) ?_
      rw [List.mem_filterMap]
      exact ⟨CountSince query t c, List.mem_map_of_mem _ hc, by rw [he]⟩
    rw [if_pos hpos]
  case refine_4 =>
    intro e he
    rw [List.mem_filterMap] at he
    obtain ⟨r, hr, hfr⟩ := he
    rw [List.mem_map] at hr
    obtain ⟨c, hc, rfl⟩ := hr
    cases hcs : CountSince query t c with
    | error e2 =>
      rw [hcs] at hfr
      simp only [Option.some.injEq] at hfr
      exact ⟨c, hc, by rw [hcs, hfr]⟩
    | ok c2 =>
      rw [hcs] at hfr
      exact absurd hfr (by simp)

/-- C3 witness: against the populated store with a failing count oracle,
member listing with a cutoff fails with a non-empty MultiError. -/
theorem c3_witness :
    ∃ errs, listChannels exQueryFail exRoster "ENGLAND".data (some 1) (some 3) exDs1 =
      .error (.multi errs) ∧ errs ≠ [] := by
  obtain ⟨errs, h1, h2, _, _⟩ := c3_fanout_error_aggregation exQueryFail exRoster
    "ENGLAND".data (some 1) 3 exDs1 [exChan] (by decide)
    ⟨exChan, by decide, "query failed".data, by decide⟩
  exact ⟨errs, h1, h2⟩

/-- C7: an observer's channel listing (no role) on a well-formed store, with
or without a cutoff, contains at most one channel and every returned channel
is the public channel (its member set is the sorted full roster); and when
the public channel record is absent, the listing succeeds with the empty
list — absence is not an error, whatever the cutoff (the fan-out over zero
channels cannot fail). -/
theorem c7_observer_channel_listing (query : Key → Except Str Int) (roster : Nations)
    (gameID : Option Int) (ds : Datastore) (since : Option Nat)
    (hwf : WellFormedChannels ds) (hroster : ∀ m ∈ roster, ',' ∉ m) :
    (∀ l, listChannels query roster [] gameID since ds = .ok l →
      l.length ≤ 1 ∧ ∀ c ∈ l, isPublic roster c.Members = true) ∧
    (∀ k, ChannelID gameID (publicChannel roster) = .ok k →
      lookupChannel ds.channels k = none →
      listChannels query roster [] gameID since ds = .ok []) := by
  constructor
  · intro l h
    simp only [listChannels] at h
    cases hsel : selectChannels roster [] gameID ds with
    | error e =>
      rw [hsel] at h
      exact absurd h (by simp)
    | ok cs =>
      rw [hsel] at h
      obtain ⟨s1, s2, _⟩ := selectChannels_observer roster gameID ds cs hwf hroster hsel
      cases since with
      | none =>
        simp only at h
        injection h with h2
        subst h2
        constructor
        · rw [List.length_map]
          exact s1
        · intro c hc
          rw [List.mem_map] at hc
          obtain ⟨c0, hc0, rfl⟩ := hc
          exact s2 c0 hc0
      | some t =>
        simp only at h
        split at h
        · exact absurd h (by simp)
        · injection h with h2
          subst h2
          constructor
          · exact le_trans (List.length_filterMap_le _ _)
              (by rw [List.length_map]; exact s1)
          · intro c hc
            rw [List.mem_filterMap] at hc
            obtain ⟨r, hr, hro⟩ := hc
            rw [List.mem_map] at hr
            obtain ⟨c0, hc0, rfl⟩ := hr
            cases hcs : CountSince query t c0 with
            | error e =>
              rw [hcs] at hro
              exact absurd hro (by simp [Except.toOption])
            | ok c2 =>
              rw [hcs] at hro
              simp only [Except.toOption, Option.some.injEq] at hro
              subst hro
              rw [CountSince_ok_members hcs]
              exact s2 c0 hc0
  · intro k hk hnone
    rw [listChannels, selectChannels_observer_empty roster gameID ds k hk hnone]
    cases since with
    | none => rfl
    | some t => rfl

/-- C7 witness: an observer listing against a store holding exactly the
public channel gets that one channel back, and it is public; against a
store without the public channel (but with a cutoff supplied), the listing
succeeds with the empty list. -/
theorem c7_witness :
    (([exPubListed].length ≤ 1) ∧
      (∀ c ∈ [exPubListed], isPublic exRoster c.Members = true)) ∧
    listChannels exQueryOk exRoster [] (some 1) (some 3) exDs1 = .ok [] := by
  constructor
  · exact (c7_observer_channel_listing exQueryOk exRoster (some 1) exDsPub none
      (by unfold WellFormedChannels; decide) (by decide)).1 [exPubListed] (by decide)
  · exact (c7_observer_channel_listing exQueryOk exRoster (some 1) exDs1 (some 3)
      (by unfold WellFormedChannels; decide) (by decide)).2 exPubKey (by decide) (by decide)

end Diplicity
